import Mathlib

/-!
# Verification of the kulak/gemini protocol library

Shallow embedding of the Gemini/Titan protocol library (Go package
`github.com/kulak/gemini`) together with theorems settling the
specification claims.  Bytes on the wire are modelled as `Nat` values
(13 = CR, 10 = LF); Go strings are modelled as `List Char`; fallible Go
functions returning `error` are modelled with `Except`/`Option`.
-/

namespace Gemini

/-! ## Line Reader (`readHeader`, client.go)

`readHeader` reads one byte at a time from the connection, appending to
`line`, and returns the accumulated bytes minus the trailing delimiter as
soon as the accumulated line ends in CRLF.  A read failure (modelled here
as exhausting the finite input stream, i.e. EOF) aborts with the error and
an empty partial result.  The Go source imposes no maximum length. -/

inductive ReadErr where
  | eof
deriving DecidableEq, Repr

/-- Models `bytes.HasSuffix(line, delim)`. -/
def hasSuffix (line delim : List Nat) : Bool :=
  delim.isSuffixOf line

/-- The accumulation loop of `readHeader` (client.go:82-92).  `line` is the
accumulated line so far; the second argument is the remaining input stream.
Returns the decoded line and the unconsumed remainder of the stream. -/
def readHeaderLoop (line : List Nat) : List Nat → Except ReadErr (List Nat × List Nat)
  | [] => .error .eof
  | b :: rest =>
    if hasSuffix (line ++ [b]) [13, 10] then
      .ok ((line ++ [b]).take ((line ++ [b]).length - 2), rest)
    else
      readHeaderLoop (line ++ [b]) rest

/-- Models `readHeader(conn)` (client.go:76-93) applied to the byte stream
`input`. -/
def readHeader (input : List Nat) : Except ReadErr (List Nat × List Nat) :=
  readHeaderLoop [] input

theorem hasSuffix_append_ne (l : List Nat) (b : Nat) (hb : b ≠ 10) :
    hasSuffix (l ++ [b]) [13, 10] = false := by
  unfold hasSuffix
  by_contra h
  rw [Bool.not_eq_false] at h
  obtain ⟨t, ht⟩ := List.isSuffixOf_iff_suffix.mp h
  have hlast := congrArg List.getLast? ht
  simp [List.getLast?_concat] at hlast
  exact hb hlast.symm

theorem hasSuffix_crlf (l : List Nat) :
    hasSuffix (l ++ [13, 10]) [13, 10] = true :=
  List.isSuffixOf_iff_suffix.mpr ⟨l, rfl⟩

/-- If the accumulated line plus the pending bytes contain no CRLF pair,
the loop returns the accumulated line extended by the bytes preceding the
delimiter and leaves the rest of the stream unconsumed. -/
theorem readHeaderLoop_delim (l : List Nat) : ∀ line rest : List Nat,
    ¬ ([13, 10] <:+: line ++ l) →
    readHeaderLoop line (l ++ 13 :: 10 :: rest) = .ok (line ++ l, rest) := by
  induction l with
  | nil =>
    intro line rest _
    simp only [List.nil_append, List.append_nil]
    rw [readHeaderLoop]
    rw [hasSuffix_append_ne line 13 (by decide)]
    simp only [Bool.false_eq_true, if_false]
    rw [readHeaderLoop]
    have hassoc : line ++ [13] ++ [10] = line ++ [13, 10] := by simp
    rw [hassoc, hasSuffix_crlf]
    simp only [if_true]
    have hlen : (line ++ [13, 10]).length - 2 = line.length := by
      simp
    rw [hlen]
    rw [List.take_left line [13, 10]]
  | cons a l ih =>
    intro line rest hinf
    have hfalse : hasSuffix (line ++ [a]) [13, 10] = false := by
      by_contra h
      rw [Bool.not_eq_false] at h
      have hs : [13, 10] <:+ line ++ [a] := List.isSuffixOf_iff_suffix.mp h
      have hp : line ++ [a] <+: line ++ a :: l := by simp
      exact hinf (hs.isInfix.trans hp.isInfix)
    simp only [List.cons_append]
    rw [readHeaderLoop, hfalse]
    simp only [Bool.false_eq_true, if_false]
    have hinf' : ¬ ([13, 10] <:+: (line ++ [a]) ++ l) := by
      simpa using hinf
    have := ih (line ++ [a]) rest hinf'
    simpa using this

/-- If the remaining stream contains no CRLF completion, the loop consumes
everything and fails with the read (EOF) error. -/
theorem readHeaderLoop_eof (l : List Nat) : ∀ line : List Nat,
    ¬ ([13, 10] <:+: line ++ l) →
    readHeaderLoop line l = .error .eof := by
  induction l with
  | nil =>
    intro line _
    rw [readHeaderLoop]
  | cons a l ih =>
    intro line hinf
    have hfalse : hasSuffix (line ++ [a]) [13, 10] = false := by
      by_contra h
      rw [Bool.not_eq_false] at h
      have hs : [13, 10] <:+ line ++ [a] := List.isSuffixOf_iff_suffix.mp h
      have hp : line ++ [a] <+: line ++ a :: l := by simp
      exact hinf (hs.isInfix.trans hp.isInfix)
    rw [readHeaderLoop, hfalse]
    simp only [Bool.false_eq_true, if_false]
    exact ih (line ++ [a]) (by simpa using hinf)

theorem readHeader_delim (l rest : List Nat) (hfree : ¬ ([13, 10] <:+: l)) :
    readHeader (l ++ 13 :: 10 :: rest) = .ok (l, rest) := by
  have := readHeaderLoop_delim l [] rest (by simpa using hfree)
  simpa [readHeader] using this

theorem crlf_not_infix_replicate : ¬ ([13, 10] <:+: List.replicate 1024 (97 : Nat)) := by
  intro h
  have h13 : (13 : Nat) ∈ List.replicate 1024 (97 : Nat) := h.subset (by simp)
  have := List.eq_of_mem_replicate h13
  simp at this

/-! ## URL model (net/url, restricted to what the package exercises)

Go strings are modelled as `List Char`.  The model of
`url.ParseRequestURI`/`url.Parse` covers scheme extraction, `?`-query
splitting, `//`-authority splitting and rooted/opaque forms.  Percent
escapes are not modelled: the server pipeline applies
`url.QueryUnescape` before `Reset`, so the decoded header handed to the
parser is escape-free in the modelled flow. -/

def SchemaGemini : List Char := "gemini".toList

def SchemaTitan : List Char := "titan".toList

structure URL where
  scheme : List Char
  host : List Char
  path : List Char
  rawQuery : List Char
deriving DecidableEq, Repr

inductive ParseErr where
  | missingProtocolScheme
  | emptyURL
  | invalidURIForRequest
  | colonInFirstSegment
deriving DecidableEq, Repr

/-- Models net/url `getScheme`: scans for a `:` terminating a valid scheme
(initial letter, then letters, digits, `+`, `-`, `.`).  Returns the scheme
(lowercased by the caller in Go; folded in here) and the remainder, or the
whole input with an empty scheme when no valid scheme prefix exists. -/
def getSchemeAux (full : List Char) (acc : List Char) :
    List Char → Except ParseErr (List Char × List Char)
  | [] => .ok ([], full)
  | c :: rest =>
    if c.isAlpha then getSchemeAux full (acc ++ [c]) rest
    else if c.isDigit || c = '+' || c = '-' || c = '.' then
      if acc = [] then .ok ([], full) else getSchemeAux full (acc ++ [c]) rest
    else if c = ':' then
      if acc = [] then .error .missingProtocolScheme
      else .ok (acc.map Char.toLower, rest)
    else .ok ([], full)

def getScheme (s : List Char) : Except ParseErr (List Char × List Char) :=
  getSchemeAux s [] s

/-- Cut a string at the first occurrence of `sep`, dropping the separator;
when `sep` does not occur, return the whole string and an empty remainder.
Models net/url's `split(s, sep, true)`. -/
def cutAtFirst (sep : Char) : List Char → List Char × List Char
  | [] => ([], [])
  | c :: rest =>
    if c = sep then ([], rest)
    else
      let p := cutAtFirst sep rest
      (c :: p.1, p.2)

/-- Models `url.ParseRequestURI(rawurl)` for the URL shapes the package
handles (`scheme://host/path?query`, rooted and opaque forms).  The Go
authority parsing (userinfo, port validation) is not exercised by the
package's flows and the host is kept verbatim. -/
def parseRequestURI (s : List Char) : Except ParseErr URL :=
  if s = [] then .error .emptyURL
  else
    match getScheme s with
    | .error e => .error e
    | .ok (scheme, rest) =>
      let q := cutAtFirst '?' rest
      let rest := q.1
      let rawQuery := q.2
      if scheme ≠ [] ∧ rest.take 2 = ['/', '/'] then
        let after := rest.drop 2
        .ok { scheme := scheme, host := after.takeWhile (· ≠ '/'),
              path := after.dropWhile (· ≠ '/'), rawQuery := rawQuery }
      else if rest.take 1 = ['/'] then
        .ok { scheme := scheme, host := [], path := rest, rawQuery := rawQuery }
      else if scheme = [] then .error .invalidURIForRequest
      else
        -- opaque URI (`scheme:data`): Opaque is not modelled; Path is empty
        .ok { scheme := scheme, host := [], path := [], rawQuery := rawQuery }

/-- Models `url.Parse(rawurl)` (the client-side constructor's parser): like
`parseRequestURI` but fragment-splitting and relative references are
allowed. -/
def urlParse (s : List Char) : Except ParseErr URL :=
  let s := (cutAtFirst '#' s).1
  match getScheme s with
  | .error e => .error e
  | .ok (scheme, rest) =>
    let q := cutAtFirst '?' rest
    let rest := q.1
    let rawQuery := q.2
    if scheme ≠ [] ∧ rest.take 2 = ['/', '/'] then
      let after := rest.drop 2
      .ok { scheme := scheme, host := after.takeWhile (· ≠ '/'),
            path := after.dropWhile (· ≠ '/'), rawQuery := rawQuery }
    else if rest.take 1 = ['/'] then
      .ok { scheme := scheme, host := [], path := rest, rawQuery := rawQuery }
    else if scheme ≠ [] then
      .ok { scheme := scheme, host := [], path := [], rawQuery := rawQuery }
    else if (rest.takeWhile (· ≠ '/')).contains ':' then
      .error .colonInFirstSegment
    else
      .ok { scheme := [], host := [], path := rest, rawQuery := rawQuery }

/-! ## Request model and decoder (gemini.go:218-318) -/

/-- Models the dynamic type of the `io.Reader`/`io.ReadCloser` held in
`Titan.Body` / passed as a client body.  `connRef` is the server's
`*tls.Conn`; `noBody` is the package's `NoBody`; `unknown` stands for any
other reader type. -/
inductive BodySrc where
  | connRef
  | buffer (data : List Nat)
  | byteReader (data : List Nat)
  | strReader (s : List Char)
  | noBody
  | unknown
deriving DecidableEq, Repr

structure TitanRequest where
  token : List Char := []
  mime : List Char := []
  size : Int := 0
  body : Option BodySrc := none
  getBody : Option BodySrc := none
deriving DecidableEq, Repr

structure Request where
  url : URL
  titan : TitanRequest
deriving DecidableEq, Repr

inductive DecodeErr where
  | parseFailed (raw : List Char) (e : ParseErr)
  | missingScheme (raw : List Char)
  | titanParamsExpected
  | badSize (v : List Char)
deriving DecidableEq, Repr

/-- Models Go `strings.Split(s, sep)` for a one-character separator. -/
def splitOnChar (sep : Char) : List Char → List (List Char)
  | [] => [[]]
  | c :: rest =>
    let r := splitOnChar sep rest
    if c = sep then [] :: r
    else
      match r with
      | h :: t => (c :: h) :: t
      | [] => [[c]]

/-- Models `strconv.ParseInt(s, 10, 64)`: optional sign, decimal digits,
64-bit signed range check.  The decoder only tests the error for
non-nilness, so the error detail is not modelled. -/
def parseInt64 (s : List Char) : Except Unit Int :=
  match s with
  | [] => .error ()
  | _ =>
    let p : Bool × List Char :=
      match s with
      | '-' :: t => (true, t)
      | '+' :: t => (false, t)
      | t => (false, t)
    let neg := p.1
    let ds := p.2
    if ds = [] then .error ()
    else if ds.all Char.isDigit then
      let v : Nat := ds.foldl (fun a c => a * 10 + (c.toNat - 48)) 0
      if neg then
        if v ≤ 2 ^ 63 then .ok (-(v : Int)) else .error ()
      else
        if v < 2 ^ 63 then .ok (v : Int) else .error ()
    else .error ()

/-- The parameter loop of `resetTitanURL` (gemini.go:290-309): each `;`
segment is split on `=`; segments without exactly one `=` are skipped;
`token`/`mime`/`size` keys update the titan parameters; unknown keys are
ignored; a `size` value rejected by `strconv.ParseInt` aborts decoding. -/
def applyTitanParams (t : TitanRequest) : List (List Char) → Except DecodeErr TitanRequest
  | [] => .ok t
  | part :: rest =>
    match splitOnChar '=' part with
    | [k, v] =>
      if k = "token".toList then applyTitanParams { t with token := v } rest
      else if k = "mime".toList then applyTitanParams { t with mime := v } rest
      else if k = "size".toList then
        match parseInt64 v with
        | .error _ => .error (.badSize v)
        | .ok n => applyTitanParams { t with size := n } rest
      else applyTitanParams t rest
    | _ => applyTitanParams t rest

/-- Models `Request.resetTitanURL` (gemini.go:284-311): split the path on
`;`, require at least one parameter segment, make the first segment the
canonical path and fold the remaining segments into the titan
parameters. -/
def resetTitanURL (u : URL) (t : TitanRequest) : Except DecodeErr (URL × TitanRequest) :=
  match splitOnChar ';' u.path with
  | p :: part :: parts =>
    match applyTitanParams t (part :: parts) with
    | .error e => .error e
    | .ok t' => .ok ({ u with path := p }, t')
  | _ => .error .titanParamsExpected

/-- Models `Request.resetGeminiURL` (gemini.go:313-318). -/
def resetGeminiURL (u : URL) : URL :=
  if u.path = [] then { u with path := "/".toList } else u

/-- Models `Request.Reset(conn, rawurl)` (gemini.go:259-282).  The titan
parameters are zeroed and `Titan.Body` is set to the connection before the
URL is parsed; scheme presence is checked; the titan scheme takes the
titan-specific path, every other scheme the gemini path. -/
def Request.Reset (rawurl : List Char) : Except DecodeErr Request :=
  let titan0 : TitanRequest :=
    { token := [], mime := [], size := 0, body := some .connRef, getBody := none }
  match parseRequestURI rawurl with
  | .error e => .error (.parseFailed rawurl e)
  | .ok u =>
    if u.scheme = [] then .error (.missingScheme rawurl)
    else if u.scheme = SchemaTitan then
      match resetTitanURL u titan0 with
      | .error e => .error e
      | .ok r => .ok { url := r.1, titan := r.2 }
    else .ok { url := resetGeminiURL u, titan := titan0 }

/-! ## Client request construction (gemini.go:407-464) -/

inductive ClientErr where
  | nilContext
  | parseFailed (e : ParseErr)
  | unknownSizePayload
deriving DecidableEq, Repr

/-- The length of a body source when the type switch in `clientRequest`
recognizes it (`*bytes.Buffer`, `*bytes.Reader`, `*strings.Reader`);
`none` for every other reader type. -/
def srcLen : BodySrc → Option Nat
  | .buffer d => some d.length
  | .byteReader d => some d.length
  | .strReader s => some s.length
  | _ => none

/-- Models `TitanRequest.clientRequest(body)` (gemini.go:425-464): the body
is stored; a `*bytes.Buffer`/`*bytes.Reader`/`*strings.Reader` records its
length in `Size` and installs a replayable `getBody` (replaced by `NoBody`
when the size is zero); any other non-nil reader is rejected as an
unknown-size payload. -/
def clientRequest (t : TitanRequest) (body : Option BodySrc) :
    TitanRequest × Option ClientErr :=
  let t := { t with body := body }
  match body with
  | none => (t, none)
  | some src =>
    match src with
    | .buffer d =>
      let t := { t with size := (d.length : Int), getBody := some (.byteReader d) }
      (if t.size = 0 then { t with getBody := some .noBody } else t, none)
    | .byteReader d =>
      let t := { t with size := (d.length : Int), getBody := some (.byteReader d) }
      (if t.size = 0 then { t with getBody := some .noBody } else t, none)
    | .strReader s =>
      let t := { t with size := (s.length : Int), getBody := some (.strReader s) }
      (if t.size = 0 then { t with getBody := some .noBody } else t, none)
    | _ => (t, some .unknownSizePayload)

/-- Models `NewRequestWithContext(ctx, url, body)` (gemini.go:407-423): nil
context rejected, URL parsed with `url.Parse`, and for every scheme other
than `gemini` the body is processed by `clientRequest`.  Go returns the
request pointer together with the error; the pair is kept. -/
def NewRequestWithContext (ctxIsNil : Bool) (url : List Char) (body : Option BodySrc) :
    Option Request × Option ClientErr :=
  if ctxIsNil then (none, some .nilContext)
  else
    match urlParse url with
    | .error e => (none, some (.parseFailed e))
    | .ok u =>
      let req : Request := { url := u, titan := {} }
      if u.scheme = SchemaGemini then (some req, none)
      else
        let r := clientRequest {} body
        (some { req with titan := r.1 }, r.2)

/-! ## Upload payload reader (gemini.go:320-325) -/

inductive ReadOutcome where
  | panics
  | fails
  | ok (bytes : List Nat)
deriving DecidableEq, Repr

/-- Models `Request.ReadTitanPayload` where `size` is `r.Titan.Size` and
`body` is the byte stream readable from `r.Titan.Body`.  The Go code runs
`make([]byte, r.Titan.Size)` — which panics at runtime for a negative
length — and then `io.ReadFull(r.Titan.Body, buf)`, which errors unless
`size` bytes are available (the precise EOF error is not modelled). -/
def ReadTitanPayload (size : Int) (body : List Nat) : ReadOutcome :=
  if size < 0 then .panics
  else if body.length < size.toNat then .fails
  else .ok (body.take size.toNat)

/-! ## Response writer (server.go:94-147)

The transport connection is modelled as a script of outcomes for the
successive `conn.Write` calls (`none` = success, `some e` = transport
error reported as the Go error string `e`) together with the bytes written
so far.  A failed write is modelled as writing nothing. -/

structure Conn where
  results : List (Option (List Char))
  wire : List Char
deriving DecidableEq, Repr

def Conn.write (c : Conn) (data : List Char) : (Nat × Option (List Char)) × Conn :=
  match c.results with
  | [] => ((data.length, none), { c with wire := c.wire ++ data })
  | none :: rs => ((data.length, none), { results := rs, wire := c.wire ++ data })
  | some e :: rs => ((0, some e), { results := rs, wire := c.wire })

inductive WriteErr where
  | statusAlreadySent
  | statusNotWritten
  | statusWriteFailed (e : List Char)
  | bodyWriteFailed (e : List Char)
deriving DecidableEq, Repr

structure Response where
  headerWritten : Bool
  conn : Conn
  err : Option WriteErr
deriving DecidableEq, Repr

/-- The bytes produced by `fmt.Fprintf(conn, "%d %s\r\n", status, msg)`. -/
def statusLine (status : Int) (msg : List Char) : List Char :=
  (if status < 0 then '-' :: Nat.toDigits 10 status.natAbs
   else Nat.toDigits 10 status.toNat) ++ ' ' :: (msg ++ ['\r', '\n'])

/-- Models `response.WriteStatusMsg` (server.go:115-126).  Note that the Go
code assigns the raw write error to `w.err` unconditionally — a successful
write therefore clears any previously recorded error — and that
`headerWritten` becomes true only on success. -/
def Response.WriteStatusMsg (w : Response) (status : Int) (msg : List Char) :
    Option WriteErr × Response :=
  if w.headerWritten then (some .statusAlreadySent, w)
  else
    let r := w.conn.write (statusLine status msg)
    match r.1.2 with
    | some te =>
      let werr := WriteErr.statusWriteFailed te
      (some werr, { w with conn := r.2, err := some werr })
    | none => (none, { w with conn := r.2, err := none, headerWritten := true })

/-- Models `response.WriteBody` (server.go:128-141): rejected before a
successful status write; short-circuited by a recorded error; otherwise a
raw connection write whose error (if any) is recorded and returned along
with the byte count. -/
def Response.WriteBody (w : Response) (body : List Char) :
    (Nat × Option WriteErr) × Response :=
  if !w.headerWritten then ((0, some .statusNotWritten), w)
  else
    match w.err with
    | some e => ((0, some e), w)
    | none =>
      let r := w.conn.write body
      match r.1.2 with
      | some te =>
        let werr := WriteErr.bodyWriteFailed te
        ((r.1.1, some werr), { w with conn := r.2, err := some werr })
      | none => ((r.1.1, none), { w with conn := r.2, err := none })

/-! ## Claim theorems -/

/-- C1 (counterexample).  The claim says a line that reaches 1024 bytes
before its CRLF delimiter makes `readHeader` fail with a "line too long"
condition.  On the stream consisting of 1024 `a` bytes followed by CRLF —
whose accumulated line reaches 1024 bytes with no CRLF among them —
`readHeader` instead succeeds, returning the full 1024-byte line. -/
theorem readHeader_long_line_succeeds :
    (List.replicate 1024 (97 : Nat)).length = 1024 ∧
    ¬ ([13, 10] <:+: List.replicate 1024 (97 : Nat)) ∧
    readHeader (List.replicate 1024 (97 : Nat) ++ 13 :: 10 :: []) =
      .ok (List.replicate 1024 (97 : Nat), []) := by
  refine ⟨by rw [List.length_replicate], crlf_not_infix_replicate, ?_⟩
  exact readHeader_delim _ [] crlf_not_infix_replicate

/-- C1 (amended).  `readHeader` imposes no maximum accumulated length:
every CRLF-terminated line is returned whole no matter how long, and a
stream exhausted without a delimiter fails with the underlying read (EOF)
error — never with a length condition — returning no partial result. -/
theorem readHeader_no_length_bound :
    (∀ l rest : List Nat, ¬ ([13, 10] <:+: l) →
      readHeader (l ++ 13 :: 10 :: rest) = .ok (l, rest)) ∧
    (∀ l : List Nat, ¬ ([13, 10] <:+: l) → readHeader l = .error .eof) := by
  constructor
  · intro l rest hfree
    exact readHeader_delim l rest hfree
  · intro l hfree
    exact readHeaderLoop_eof l [] (by simpa using hfree)

/-- C1 (witness for the amended theorem). -/
theorem readHeader_no_length_bound_witness :
    readHeader (List.replicate 2000 (97 : Nat) ++ 13 :: 10 :: [99]) =
      .ok (List.replicate 2000 (97 : Nat), [99]) ∧
    readHeader [104, 105] = .error .eof := by
  constructor
  · refine readHeader_no_length_bound.1 _ [99] ?_
    intro h
    have h13 : (13 : Nat) ∈ List.replicate 2000 (97 : Nat) := h.subset (by simp)
    have := List.eq_of_mem_replicate h13
    simp at this
  · exact readHeader_no_length_bound.2 [104, 105] (by decide)

/-- C4.  For every raw line (under the 1024-byte threshold) containing no
CRLF pair and followed by CRLF on the stream, `readHeader` returns exactly
the bytes preceding the first CRLF, excluding the delimiter, and consumes
exactly those bytes plus the two delimiter bytes, leaving the remainder of
the stream untouched. -/
theorem readHeader_returns_line_before_crlf (l rest : List Nat)
    (_hlen : l.length < 1024) (hfree : ¬ ([13, 10] <:+: l)) :
    readHeader (l ++ 13 :: 10 :: rest) = .ok (l, rest) :=
  readHeader_delim l rest hfree

/-- C4 (witness). -/
theorem readHeader_returns_line_before_crlf_witness :
    readHeader [103, 104, 13, 10, 55, 56] = .ok ([103, 104], [55, 56]) := by
  have := readHeader_returns_line_before_crlf [103, 104] [55, 56]
    (by decide) (by decide)
  simpa using this

/-- C10.  `ReadTitanPayload` is total only for non-negative sizes: with
`Titan.Size = n ≥ 0` it allocates a buffer of exactly `n` bytes, succeeds
exactly when `n` bytes can be read, and fails on a short stream; with a
negative `Titan.Size` — which the decoder's signed `ParseInt` can produce,
as witnessed by decoding `titan://host/path;size=-1` — the allocation
`make([]byte, Size)` panics instead of returning an error. -/
theorem readTitanPayload_size_cases :
    (∀ (size : Int) (body : List Nat), 0 ≤ size → size.toNat ≤ body.length →
      ReadTitanPayload size body = .ok (body.take size.toNat) ∧
      (body.take size.toNat).length = size.toNat) ∧
    (∀ (size : Int) (body : List Nat), 0 ≤ size → body.length < size.toNat →
      ReadTitanPayload size body = .fails) ∧
    (∀ (size : Int) (body : List Nat), size < 0 → ReadTitanPayload size body = .panics) ∧
    (Request.Reset "titan://host/path;size=-1".toList).toOption.map (fun r => r.titan.size) =
      some (-1) := by
  refine ⟨?_, ?_, ?_, by decide⟩
  · intro size body h0 hle
    have hnot : ¬ size < 0 := not_lt.mpr h0
    have hnot2 : ¬ body.length < size.toNat := not_lt.mpr hle
    constructor
    · simp [ReadTitanPayload, hnot, hnot2]
    · rw [List.length_take]
      exact Nat.min_eq_left hle
  · intro size body h0 hlt
    have hnot : ¬ size < 0 := not_lt.mpr h0
    simp [ReadTitanPayload, hnot, hlt]
  · intro size body hneg
    simp [ReadTitanPayload, hneg]

/-- C10 (witness). -/
theorem readTitanPayload_size_cases_witness :
    (ReadTitanPayload 2 [5, 6, 7] = .ok [5, 6] ∧ ([5, 6] : List Nat).length = 2) ∧
    ReadTitanPayload 3 [5] = .fails ∧
    ReadTitanPayload (-1) [] = .panics := by
  refine ⟨?_, ?_, ?_⟩
  · have := readTitanPayload_size_cases.1 2 [5, 6, 7] (by decide) (by decide)
    simpa using this
  · exact readTitanPayload_size_cases.2.1 3 [5] (by decide) (by decide)
  · exact readTitanPayload_size_cases.2.2.1 (-1) [] (by decide)

/-- C2 (counterexample).  The claim says that once a transport error occurs
during `WriteStatusMsg` the recorded error is sticky and every subsequent
write short-circuits with it, performing no I/O.  Start from a fresh
response writer whose connection fails the first write and accepts the
second: the first `WriteStatusMsg` records the error, but a second
`WriteStatusMsg` — far from short-circuiting with the recorded error —
performs the write, puts the status line on the wire, reports no error,
and even clears the recorded error. -/
theorem writeStatus_error_not_sticky :
    ((⟨false, ⟨[some "broken".toList], []⟩, none⟩ : Response).WriteStatusMsg
        20 "ok".toList).2 =
      ⟨false, ⟨[], []⟩, some (.statusWriteFailed "broken".toList)⟩ ∧
    (((⟨false, ⟨[some "broken".toList], []⟩, none⟩ : Response).WriteStatusMsg
        20 "ok".toList).2.WriteStatusMsg 20 "ok".toList) =
      (none, ⟨true, ⟨[], "20 ok\r\n".toList⟩, none⟩) := by
  decide

/-- C2 (amended).  Stickiness holds only for errors recorded while
`headerWritten` is true (i.e. body-write failures): a recorded error is
then returned by every subsequent `WriteBody`, which performs no I/O; a
body-write transport error is recorded as the sticky error and returned.
After a failed `WriteStatusMsg` (which leaves `headerWritten` false),
`WriteBody` instead fails with the "status not written" error, and a
repeated `WriteStatusMsg` retries the I/O. -/
theorem writeBody_error_sticky :
    (∀ (w : Response) (body : List Char) (e : WriteErr),
      w.headerWritten = true → w.err = some e →
      w.WriteBody body = ((0, some e), w)) ∧
    (∀ (w : Response) (body : List Char) (te : List Char),
      w.headerWritten = true → w.err = none →
      (w.conn.write body).1.2 = some te →
      w.WriteBody body = (((w.conn.write body).1.1, some (.bodyWriteFailed te)),
        { w with conn := (w.conn.write body).2, err := some (.bodyWriteFailed te) })) ∧
    (∀ (w : Response) (body : List Char),
      w.headerWritten = false →
      w.WriteBody body = ((0, some .statusNotWritten), w)) := by
  refine ⟨?_, ?_, ?_⟩
  · intro w body e hw he
    simp [Response.WriteBody, hw, he]
  · intro w body te hw he hte
    simp only [Response.WriteBody, hw, Bool.not_true, Bool.false_eq_true, if_false, he]
    rw [hte]
  · intro w body hw
    simp [Response.WriteBody, hw]

/-- C2 (witness for the amended theorem). -/
theorem writeBody_error_sticky_witness :
    (⟨true, ⟨[], []⟩, some (.bodyWriteFailed "x".toList)⟩ : Response).WriteBody ['y'] =
      ((0, some (.bodyWriteFailed "x".toList)),
        ⟨true, ⟨[], []⟩, some (.bodyWriteFailed "x".toList)⟩) ∧
    (⟨true, ⟨[some "x".toList], []⟩, none⟩ : Response).WriteBody ['y'] =
      ((0, some (.bodyWriteFailed "x".toList)),
        ⟨true, ⟨[], []⟩, some (.bodyWriteFailed "x".toList)⟩) ∧
    (⟨false, ⟨[], []⟩, none⟩ : Response).WriteBody ['y'] =
      ((0, some .statusNotWritten), ⟨false, ⟨[], []⟩, none⟩) := by
  refine ⟨writeBody_error_sticky.1 _ ['y'] _ rfl rfl, ?_, writeBody_error_sticky.2.2 _ ['y'] rfl⟩
  have h := writeBody_error_sticky.2.1 (⟨true, ⟨[some "x".toList], []⟩, none⟩ : Response)
    ['y'] "x".toList rfl rfl (by decide)
  exact h

/-- C3.  `WriteBody` before any successful `WriteStatusMsg` fails with the
"status not written" error and writes nothing; a second `WriteStatusMsg`
after a successful first call fails with the "status already sent" error,
performs no I/O, and leaves the writer state — `headerWritten = true` and
the bytes already on the wire — unchanged. -/
theorem response_write_ordering :
    (∀ (w : Response) (body : List Char), w.headerWritten = false →
      w.WriteBody body = ((0, some .statusNotWritten), w)) ∧
    (∀ (w : Response) (status : Int) (msg : List Char) (w' : Response),
      w.WriteStatusMsg status msg = (none, w') →
      w'.headerWritten = true ∧
      ∀ (status' : Int) (msg' : List Char),
        w'.WriteStatusMsg status' msg' = (some .statusAlreadySent, w')) := by
  constructor
  · intro w body hw
    simp [Response.WriteBody, hw]
  · intro w status msg w' hok
    by_cases hw : w.headerWritten
    · simp [Response.WriteStatusMsg, hw] at hok
    · simp only [Response.WriteStatusMsg, hw, Bool.false_eq_true, if_false] at hok
      rcases hte : (w.conn.write (statusLine status msg)).1.2 with _ | te
      · rw [hte] at hok
        simp only [Prod.mk.injEq] at hok
        have hw' : w'.headerWritten = true := by
          rw [← hok.2]
        refine ⟨hw', ?_⟩
        intro status' msg'
        simp [Response.WriteStatusMsg, hw']
      · rw [hte] at hok
        simp at hok

/-- C3 (witness). -/
theorem response_write_ordering_witness :
    (⟨false, ⟨[], []⟩, none⟩ : Response).WriteBody ['x'] =
      ((0, some .statusNotWritten), ⟨false, ⟨[], []⟩, none⟩) ∧
    (⟨true, ⟨[], "20 ok\r\n".toList⟩, none⟩ : Response).WriteStatusMsg 30 ['x'] =
      (some .statusAlreadySent, ⟨true, ⟨[], "20 ok\r\n".toList⟩, none⟩) := by
  constructor
  · exact response_write_ordering.1 _ ['x'] rfl
  · exact (response_write_ordering.2 (⟨false, ⟨[], []⟩, none⟩ : Response) 20 "ok".toList
      (⟨true, ⟨[], "20 ok\r\n".toList⟩, none⟩ : Response) (by decide)).2 30 ['x']

theorem resetTitanURL_scheme (u : URL) (t : TitanRequest) (r : URL × TitanRequest)
    (h : resetTitanURL u t = .ok r) : r.1.scheme = u.scheme := by
  unfold resetTitanURL at h
  rcases hsp : splitOnChar ';' u.path with _ | ⟨p, _ | ⟨q, ps⟩⟩ <;> rw [hsp] at h
  · simp at h
  · simp at h
  · dsimp only at h
    rcases happ : applyTitanParams t (q :: ps) with e | t' <;> rw [happ] at h <;>
      simp at h
    rw [← h]

/-- C5.  Decoding a titan request line whose path splits on `;` into a path
plus parameter segments sets the canonical path to the first segment and
populates `token`/`mime`/`size` from the `key=value` segments, silently
skipping segments without exactly one `=` and silently ignoring unknown
keys.  In particular `titan://host/path;mime=text/plain;size=23` decodes to
path `/path`, mime `text/plain`, size 23 and an empty token. -/
theorem titan_decode_params :
    Request.Reset "titan://host/path;mime=text/plain;size=23".toList =
      .ok ⟨⟨"titan".toList, "host".toList, "/path".toList, []⟩,
           ⟨[], "text/plain".toList, 23, some .connRef, none⟩⟩ ∧
    (∀ (u : URL) (t : TitanRequest) (p : List Char) (ps : List (List Char))
        (r : URL × TitanRequest),
      splitOnChar ';' u.path = p :: ps → ps ≠ [] →
      resetTitanURL u t = .ok r → r.1.path = p) ∧
    (∀ (t : TitanRequest) (part : List Char) (rest : List (List Char)),
      (splitOnChar '=' part).length ≠ 2 →
      applyTitanParams t (part :: rest) = applyTitanParams t rest) ∧
    (∀ (t : TitanRequest) (part k v : List Char) (rest : List (List Char)),
      splitOnChar '=' part = [k, v] →
      k ≠ "token".toList → k ≠ "mime".toList → k ≠ "size".toList →
      applyTitanParams t (part :: rest) = applyTitanParams t rest) := by
  refine ⟨rfl, ?_, ?_, ?_⟩
  · intro u t p ps r hsp hps hr
    unfold resetTitanURL at hr
    rcases ps with _ | ⟨q, ps'⟩
    · exact absurd rfl hps
    · rw [hsp] at hr
      dsimp only at hr
      rcases happ : applyTitanParams t (q :: ps') with e | t' <;> rw [happ] at hr <;>
        simp at hr
      rw [← hr]
  · intro t part rest hlen
    rcases hsp : splitOnChar '=' part with _ | ⟨k, _ | ⟨v, _ | ⟨x, xs⟩⟩⟩ <;>
      simp only [applyTitanParams, hsp]
    exact absurd (by simp [hsp]) hlen
  · intro t part k v rest hsp hk1 hk2 hk3
    simp only [applyTitanParams, hsp]
    rw [if_neg hk1, if_neg hk2, if_neg hk3]

/-- C5 (witness). -/
theorem titan_decode_params_witness :
    (⟨SchemaTitan, "h".toList, "/a".toList, []⟩ : URL).path = "/a".toList ∧
    applyTitanParams {} ["ab".toList] = applyTitanParams {} [] ∧
    applyTitanParams {} ["zz=1".toList] = applyTitanParams {} [] := by
  refine ⟨?_, ?_, ?_⟩
  · exact titan_decode_params.2.1 ⟨SchemaTitan, "h".toList, "/a;x=1".toList, []⟩
      { body := some .connRef } "/a".toList ["x=1".toList]
      (⟨SchemaTitan, "h".toList, "/a".toList, []⟩, { body := some .connRef })
      rfl (by decide) rfl
  · exact titan_decode_params.2.2.1 {} "ab".toList [] (by decide)
  · exact titan_decode_params.2.2.2 {} "zz=1".toList "zz".toList "1".toList [] rfl
      (by decide) (by decide) (by decide)

/-- C6.  For every request line that decodes successfully under a
non-titan scheme, the decoded path is never empty, and when the parsed URL
had an empty path the decoder set it to `/`. -/
theorem gemini_path_defaulted :
    ∀ (raw : List Char) (r : Request),
      Request.Reset raw = .ok r → r.url.scheme ≠ SchemaTitan →
      r.url.path ≠ [] ∧
      (∀ u : URL, parseRequestURI raw = .ok u → u.path = [] →
        r.url.path = "/".toList) := by
  intro raw r hr hsch
  unfold Request.Reset at hr
  rcases hp : parseRequestURI raw with e | u <;> rw [hp] at hr
  · simp at hr
  · dsimp only at hr
    by_cases hs0 : u.scheme = []
    · simp [hs0] at hr
    · rw [if_neg hs0] at hr
      by_cases hst : u.scheme = SchemaTitan
      · rw [if_pos hst] at hr
        rcases hres : resetTitanURL u
            { token := [], mime := [], size := 0, body := some .connRef,
              getBody := none } with e' | p <;> rw [hres] at hr <;> simp at hr
        have hscheme := resetTitanURL_scheme u _ p hres
        rw [← hr] at hsch
        exact absurd (hscheme.trans hst) hsch
      · rw [if_neg hst] at hr
        simp only [Except.ok.injEq] at hr
        subst hr
        constructor
        · by_cases hpe : u.path = []
          · simp [resetGeminiURL, hpe]
          · simp [resetGeminiURL, hpe]
        · intro u' hp' hpe
          have huu : u = u' := Except.ok.inj hp'
          subst huu
          simp [resetGeminiURL, hpe]

/-- C6 (witness): decoding `gemini://host` (empty parsed path) yields a
request whose path is `/`. -/
theorem gemini_path_defaulted_witness :
    (⟨⟨SchemaGemini, "host".toList, "/".toList, []⟩,
      { token := [], mime := [], size := 0, body := some .connRef,
        getBody := none }⟩ : Request).url.path ≠ [] ∧
    (⟨⟨SchemaGemini, "host".toList, "/".toList, []⟩,
      { token := [], mime := [], size := 0, body := some .connRef,
        getBody := none }⟩ : Request).url.path = "/".toList := by
  have h := gemini_path_defaulted "gemini://host".toList
    ⟨⟨SchemaGemini, "host".toList, "/".toList, []⟩,
      { token := [], mime := [], size := 0, body := some .connRef,
        getBody := none }⟩ rfl (by decide)
  exact ⟨h.1, h.2 ⟨SchemaGemini, "host".toList, [], []⟩ rfl rfl⟩

/-- C7 (counterexample).  The claim says a `size` parameter that is not a
non-negative decimal integer — explicitly including `size=-1` — is a hard
decode failure.  Decoding `titan://host/path;size=-1` instead succeeds,
producing `Titan.Size = -1`: `strconv.ParseInt` is a signed parse. -/
theorem titan_negative_size_accepted :
    Request.Reset "titan://host/path;size=-1".toList =
      .ok ⟨⟨"titan".toList, "host".toList, "/path".toList, []⟩,
           ⟨[], [], -1, some .connRef, none⟩⟩ ∧
    (-1 : Int) < 0 :=
  ⟨rfl, by decide⟩

/-- C7 (amended).  A `size` value rejected by the signed 64-bit decimal
parse (e.g. non-numeric text) is a hard decode failure naming the bad
value; a value accepted by the signed parse — including negative decimals
such as `-1` — is not a failure and is stored in `size`. -/
theorem titan_size_parse_failure :
    (∀ (t : TitanRequest) (part v : List Char) (rest : List (List Char)),
      splitOnChar '=' part = ["size".toList, v] →
      parseInt64 v = .error () →
      applyTitanParams t (part :: rest) = .error (.badSize v)) ∧
    (∀ (t : TitanRequest) (part v : List Char) (rest : List (List Char)) (n : Int),
      splitOnChar '=' part = ["size".toList, v] →
      parseInt64 v = .ok n →
      applyTitanParams t (part :: rest) =
        applyTitanParams { t with size := n } rest) := by
  constructor
  · intro t part v rest hsp herr
    simp only [applyTitanParams, hsp]
    simp only [if_neg (show ¬ "size".toList = "token".toList by decide),
      if_neg (show ¬ "size".toList = "mime".toList by decide), if_pos rfl]
    rw [herr]
    exact if_pos trivial
  · intro t part v rest n hsp hok
    simp only [applyTitanParams, hsp]
    simp only [if_neg (show ¬ "size".toList = "token".toList by decide),
      if_neg (show ¬ "size".toList = "mime".toList by decide), if_pos rfl]
    rw [hok]
    exact if_pos trivial

/-- C7 (witness for the amended theorem). -/
theorem titan_size_parse_failure_witness :
    applyTitanParams {} ["size=xx".toList] = .error (.badSize "xx".toList) ∧
    applyTitanParams {} ["size=-1".toList] =
      applyTitanParams ({ size := -1 } : TitanRequest) [] := by
  constructor
  · exact titan_size_parse_failure.1 {} "size=xx".toList "xx".toList [] rfl rfl
  · exact titan_size_parse_failure.2 {} "size=-1".toList "-1".toList [] (-1) rfl rfl

/-- C8 (counterexample).  The claim says the upload parameters are
populated if and only if the scheme is `titan`.  Constructing a client
request for `other://h` (a scheme that is neither `gemini` nor `titan`)
with a 3-byte buffer body populates `Titan.Size = 3`:
`NewRequestWithContext` runs the titan body processing for every
non-gemini scheme. -/
theorem titan_params_not_iff_titan :
    ((NewRequestWithContext false "other://h".toList (some (.buffer [1, 2, 3]))).1.map
      fun r => (r.url.scheme, r.titan.size)) = some ("other".toList, 3) ∧
    "other".toList ≠ SchemaTitan ∧
    ((NewRequestWithContext false "other://h".toList (some (.buffer [1, 2, 3]))).2 = none) ∧
    (3 : Int) ≠ 0 :=
  ⟨rfl, by decide, rfl, by decide⟩

/-- C8 (amended).  In `Request.Reset`, `token`/`mime`/`size` keep their
zero defaults for every non-titan scheme, but `Titan.Body` is set to the
connection unconditionally; in `NewRequestWithContext` the upload
parameters are populated for every scheme other than `gemini` (not only
for `titan`), while a `gemini` URL leaves them untouched. -/
theorem upload_params_population :
    (∀ (raw : List Char) (r : Request),
      Request.Reset raw = .ok r → r.url.scheme ≠ SchemaTitan →
      r.titan.token = [] ∧ r.titan.mime = [] ∧ r.titan.size = 0 ∧
      r.titan.body = some .connRef) ∧
    (∀ (url : List Char) (body : Option BodySrc) (u : URL),
      urlParse url = .ok u → u.scheme = SchemaGemini →
      NewRequestWithContext false url body = (some ⟨u, {}⟩, none)) ∧
    (∀ (url : List Char) (u : URL) (d : List Nat),
      urlParse url = .ok u → u.scheme ≠ SchemaGemini →
      ((NewRequestWithContext false url (some (.buffer d))).1.map fun r => r.titan.size) =
        some (d.length : Int)) := by
  refine ⟨?_, ?_, ?_⟩
  · intro raw r hr hsch
    unfold Request.Reset at hr
    rcases hp : parseRequestURI raw with e | u <;> rw [hp] at hr
    · simp at hr
    · dsimp only at hr
      by_cases hs0 : u.scheme = []
      · simp [hs0] at hr
      · rw [if_neg hs0] at hr
        by_cases hst : u.scheme = SchemaTitan
        · rw [if_pos hst] at hr
          rcases hres : resetTitanURL u
              { token := [], mime := [], size := 0, body := some .connRef,
                getBody := none } with e' | p <;> rw [hres] at hr <;> simp at hr
          have hscheme := resetTitanURL_scheme u _ p hres
          rw [← hr] at hsch
          exact absurd (hscheme.trans hst) hsch
        · rw [if_neg hst] at hr
          simp only [Except.ok.injEq] at hr
          subst hr
          exact ⟨rfl, rfl, rfl, rfl⟩
  · intro url body u hpu hsch
    simp only [NewRequestWithContext, Bool.false_eq_true, if_false, hpu]
    rw [if_pos hsch]
  · intro url u d hpu hsch
    simp only [NewRequestWithContext, Bool.false_eq_true, if_false, hpu]
    rw [if_neg hsch]
    by_cases h0 : (d.length : Int) = 0 <;> simp [clientRequest, h0]

/-- C8 (witness for the amended theorem). -/
theorem upload_params_population_witness :
    ((⟨⟨SchemaGemini, "host".toList, "/".toList, []⟩,
      { token := [], mime := [], size := 0, body := some .connRef,
        getBody := none }⟩ : Request).titan.token = [] ∧
      (⟨⟨SchemaGemini, "host".toList, "/".toList, []⟩,
        { token := [], mime := [], size := 0, body := some .connRef,
          getBody := none }⟩ : Request).titan.mime = [] ∧
      (⟨⟨SchemaGemini, "host".toList, "/".toList, []⟩,
        { token := [], mime := [], size := 0, body := some .connRef,
          getBody := none }⟩ : Request).titan.size = 0 ∧
      (⟨⟨SchemaGemini, "host".toList, "/".toList, []⟩,
        { token := [], mime := [], size := 0, body := some .connRef,
          getBody := none }⟩ : Request).titan.body = some .connRef) ∧
    NewRequestWithContext false "gemini://h".toList none =
      (some ⟨⟨SchemaGemini, "h".toList, [], []⟩, {}⟩, none) ∧
    ((NewRequestWithContext false "other://h".toList (some (.buffer [7, 8]))).1.map
      fun r => r.titan.size) = some ((2 : Nat) : Int) := by
  refine ⟨?_, ?_, ?_⟩
  · exact upload_params_population.1 "gemini://host".toList
      ⟨⟨SchemaGemini, "host".toList, "/".toList, []⟩,
        { token := [], mime := [], size := 0, body := some .connRef,
          getBody := none }⟩ rfl (by decide)
  · exact upload_params_population.2.1 "gemini://h".toList none
      ⟨SchemaGemini, "h".toList, [], []⟩ rfl rfl
  · exact upload_params_population.2.2 "other://h".toList
      ⟨"other".toList, "h".toList, [], []⟩ [7, 8] rfl (by decide)

/-- C9.  Client-side construction with a titan URL and a non-nil body
succeeds exactly when the body's size is known (a buffer or reader whose
length the type switch can take), in which case the size is recorded in
the request; a body of unknown length makes construction fail with the
unknown-size error. -/
theorem titan_client_body_size_required :
    ∀ (url : List Char) (body : Option BodySrc) (u : URL) (src : BodySrc),
      urlParse url = .ok u → u.scheme = SchemaTitan → body = some src →
      (((NewRequestWithContext false url body).2 = none) ↔ (srcLen src).isSome = true) ∧
      (∀ n : Nat, srcLen src = some n →
        ((NewRequestWithContext false url body).1.map fun r => r.titan.size) =
          some (n : Int)) ∧
      ((srcLen src).isSome = false →
        (NewRequestWithContext false url body).2 = some .unknownSizePayload) := by
  intro url body u src hpu hsch hbody
  subst hbody
  have hng : u.scheme ≠ SchemaGemini := by rw [hsch]; decide
  simp only [NewRequestWithContext, Bool.false_eq_true, if_false, hpu]
  rw [if_neg hng]
  cases src with
  | connRef => simp [clientRequest, srcLen]
  | buffer d =>
    by_cases h0 : (d.length : Int) = 0 <;> simp [clientRequest, srcLen, h0]
  | byteReader d =>
    by_cases h0 : (d.length : Int) = 0 <;> simp [clientRequest, srcLen, h0]
  | strReader s =>
    by_cases h0 : (s.length : Int) = 0 <;> simp [clientRequest, srcLen, h0]
  | noBody => simp [clientRequest, srcLen]
  | unknown => simp [clientRequest, srcLen]

/-- C9 (witness). -/
theorem titan_client_body_size_required_witness :
    ((NewRequestWithContext false "titan://h/p".toList (some (.buffer [1, 2, 3]))).2 =
      none) ∧
    ((NewRequestWithContext false "titan://h/p".toList (some (.buffer [1, 2, 3]))).1.map
      fun r => r.titan.size) = some ((3 : Nat) : Int) ∧
    (NewRequestWithContext false "titan://h/p".toList (some .unknown)).2 =
      some .unknownSizePayload := by
  have h1 := titan_client_body_size_required "titan://h/p".toList
    (some (.buffer [1, 2, 3])) ⟨SchemaTitan, "h".toList, "/p".toList, []⟩
    (.buffer [1, 2, 3]) rfl rfl rfl
  have h2 := titan_client_body_size_required "titan://h/p".toList (some .unknown)
    ⟨SchemaTitan, "h".toList, "/p".toList, []⟩ .unknown rfl rfl rfl
  exact ⟨h1.1.mpr rfl, h1.2.1 3 rfl, h2.2.2 rfl⟩

end Gemini
